import Mathlib

/-!
Verification of the worker-pool core of the go-newsletter repository
(src/internal/infrastructure/workerpool/workerpool.go) and of the
SendEmailJob (src/unnamed/part_012), against its natural-language
specification.

The pool is embedded as a small-step transition system.  A `PoolState`
records the fields of the Go `WorkerPool` struct together with the run-time
configuration of its goroutines and channel:

  * `workers`   — the `workers int` field (may be non-positive, since
                  `NewWorkerPool` parses it with `strconv.Atoi` and discards
                  the error);
  * `capacity`  — the buffer size of the `jobs` channel;
  * `queue`     — the jobs currently sitting in the channel buffer (FIFO);
  * `closed`    — whether `close(wp.jobs)` has been executed;
  * `wg`        — the value of the `sync.WaitGroup` counter;
  * `idle`      — workers blocked in `for job := range wp.jobs`;
  * `busy`      — jobs currently inside `job.Process()` on some worker;
  * `exited`    — workers whose range loop has terminated.

History variables (`submitted`, `taken`, `completed`, `logged`, `phantom`)
record, in order, the jobs that were submitted, the jobs removed from the
channel (i.e. whose `Process` call begins), the jobs whose `Process` call
returned (followed by `wp.wg.Done()`), the failed jobs written to the log,
and the number of `wg.Add(1)` calls made by a `Submit` that then panicked
on the closed channel.  `panicked` records that the Go runtime panicked
(send on closed channel, or close of closed channel); no further step is
possible from a panicked state.

Jobs are identified by natural-number tokens; each submission event gets a
fresh token.  Whether a job's `Process` returns an error is given by an
arbitrary function `f : Nat → Bool`, which the transition relation treats
uniformly (the worker loop logs the error and continues either way).
-/

/-- Parse a decimal integer the way Go strconv.ParseInt does for base 10:
an optional sign followed by at least one digit, nothing else. -/
def parseDigits : List Char → Nat → Option Nat
  | [], acc => some acc
  | c :: cs, acc =>
      if c.isDigit then parseDigits cs (acc * 10 + (c.toNat - 48)) else none

/-- Syntax phase of Go strconv.Atoi: none models a syntax error. -/
def goParseInt (s : String) : Option Int :=
  match s.data with
  | [] => none
  | c :: cs =>
      let signed : Bool × List Char :=
        if c = '-' then (true, cs) else if c = '+' then (false, cs) else (false, c :: cs)
      match signed.2 with
      | [] => none
      | ds =>
          match parseDigits ds 0 with
          | none => none
          | some n => some (if signed.1 then -(n : Int) else (n : Int))

/-- Range phase of Go strconv.Atoi on a 64-bit platform: out-of-range
values are clamped (Atoi returns the clamped value together with ErrRange,
and the worker-pool constructor discards the error). -/
def clampInt64 (v : Int) : Int :=
  if v > 9223372036854775807 then 9223372036854775807
  else if v < -9223372036854775808 then -9223372036854775808
  else v

/-- Go `workers, _ := strconv.Atoi(workersStr)`: the error is discarded,
so a syntax error yields 0 and an out-of-range value is clamped. -/
def goAtoi (s : String) : Int :=
  match goParseInt s with
  | none => 0
  | some v => clampInt64 v

/-- State of one `WorkerPool` together with its goroutines, channel
contents and history variables. -/
structure PoolState where
  workers : Int
  capacity : Nat
  idle : Nat
  exited : Nat
  busy : List Nat
  queue : List Nat
  closed : Bool
  wg : Nat
  submitted : List Nat
  taken : List Nat
  completed : List Nat
  logged : List Nat
  phantom : Nat
  panicked : Bool
  started : Nat
deriving DecidableEq, Repr

/-- The pool built by `NewWorkerPool` before any goroutine runs:
no workers started, empty channel, WaitGroup at zero. -/
def mkPoolState (w : Int) (c : Nat) : PoolState :=
  { workers := w, capacity := c, idle := 0, exited := 0, busy := [],
    queue := [], closed := false, wg := 0, submitted := [], taken := [],
    completed := [], logged := [], phantom := 0, panicked := false,
    started := 0 }

/-- `NewWorkerPool(workersStr, sizeStr, wg)`: both strings are parsed with
`strconv.Atoi` and the errors are discarded; `make(chan Job, size)` panics
when `size` is negative, modelled by `none`. -/
def NewWorkerPool (workersStr sizeStr : String) : Option PoolState :=
  let w := goAtoi workersStr
  let size := goAtoi sizeStr
  if size < 0 then none else some (mkPoolState w size.toNat)

/-- `Start()`: spawns `wp.workers` worker goroutines (none when the field
is non-positive, since the loop is `for i := 0; i < wp.workers; i++`).
There is no guard: every call spawns a fresh fleet. -/
def startAct (s : PoolState) : PoolState :=
  { s with idle := s.idle + s.workers.toNat, started := s.started + 1 }

/-- `Submit(job)` completing through the channel buffer:
`wp.wg.Add(1)` followed by `wp.jobs <- job` landing in free buffer space. -/
def submitEnqAct (s : PoolState) (j : Nat) : PoolState :=
  { s with wg := s.wg + 1, queue := s.queue ++ [j],
           submitted := s.submitted ++ [j] }

/-- `Submit(job)` completing by rendezvous with a waiting worker (the only
way a send completes when the channel buffer has no free slot, and the only
way at all when the capacity is 0). -/
def submitHandAct (s : PoolState) (j : Nat) : PoolState :=
  { s with wg := s.wg + 1, idle := s.idle - 1, busy := j :: s.busy,
           submitted := s.submitted ++ [j], taken := s.taken ++ [j] }

/-- `Submit(job)` on a closed channel: `wp.wg.Add(1)` succeeds and then
`wp.jobs <- job` panics (send on closed channel). -/
def submitClosedAct (s : PoolState) : PoolState :=
  { s with wg := s.wg + 1, phantom := s.phantom + 1, panicked := true }

/-- An idle worker receives the job at the head of the channel buffer;
`job.Process()` begins. -/
def dequeueAct (s : PoolState) (j : Nat) (rest : List Nat) : PoolState :=
  { s with idle := s.idle - 1, busy := j :: s.busy, queue := rest,
           taken := s.taken ++ [j] }

/-- `job.Process()` returns on a busy worker: the error, if any, is logged
(`log.Println` and `slog.Warn`), then `wp.wg.Done()` runs and the worker
goes back to the top of its range loop. -/
def finishAct (f : Nat → Bool) (s : PoolState) (j : Nat) : PoolState :=
  { s with busy := s.busy.erase j, idle := s.idle + 1, wg := s.wg - 1,
           completed := s.completed ++ [j],
           logged := if f j then s.logged ++ [j] else s.logged }

/-- An idle worker observes the channel closed and empty: its
`for job := range wp.jobs` loop terminates. -/
def workerExitAct (s : PoolState) : PoolState :=
  { s with idle := s.idle - 1, exited := s.exited + 1 }

/-- `Shutdown()`: `close(wp.jobs)`.  Closing an already-closed channel
panics. -/
def shutdownAct (s : PoolState) : PoolState :=
  if s.closed then { s with panicked := true } else { s with closed := true }

/-- One scheduler step of the pool and its client threads.  `f` tells which
jobs fail in `Process`.  No step leaves a panicked state: a Go panic in any
of these goroutines crashes the process. -/
inductive Step (f : Nat → Bool) : PoolState → PoolState → Prop
  | start (s : PoolState) (hp : s.panicked = false) :
      Step f s (startAct s)
  | submitEnq (s : PoolState) (j : Nat) (hp : s.panicked = false)
      (hc : s.closed = false) (hj : j ∉ s.submitted)
      (hq : s.queue.length < s.capacity) :
      Step f s (submitEnqAct s j)
  | submitHand (s : PoolState) (j : Nat) (hp : s.panicked = false)
      (hc : s.closed = false) (hj : j ∉ s.submitted)
      (hq : s.queue = []) (hi : 0 < s.idle) :
      Step f s (submitHandAct s j)
  | submitClosed (s : PoolState) (j : Nat) (hp : s.panicked = false)
      (hc : s.closed = true) :
      Step f s (submitClosedAct s)
  | dequeue (s : PoolState) (j : Nat) (rest : List Nat)
      (hp : s.panicked = false) (hq : s.queue = j :: rest) (hi : 0 < s.idle) :
      Step f s (dequeueAct s j rest)
  | finish (s : PoolState) (j : Nat) (hp : s.panicked = false)
      (hb : j ∈ s.busy) :
      Step f s (finishAct f s j)
  | workerExit (s : PoolState) (hp : s.panicked = false)
      (hc : s.closed = true) (hq : s.queue = []) (hi : 0 < s.idle) :
      Step f s (workerExitAct s)
  | shutdown (s : PoolState) (hp : s.panicked = false) :
      Step f s (shutdownAct s)

/-- Reachability: zero or more scheduler steps. -/
def Reach (f : Nat → Bool) : PoolState → PoolState → Prop :=
  Relation.ReflTransGen (Step f)

/-- `Wait()` returns exactly when the WaitGroup counter is zero. -/
def WaitReturns (s : PoolState) : Prop := s.wg = 0

/-- The inductive invariant of the pool.  `qcap` is the channel-buffer
bound; `fifo` says the submission order is the taken order followed by the
buffer contents; `wg_eq` relates the WaitGroup counter to the history;
`perm` says every taken job is either busy or completed, once; `nodup`
says submission tokens are distinct. -/
structure PoolInv (s : PoolState) : Prop where
  qcap : s.queue.length ≤ s.capacity
  fifo : s.submitted = s.taken ++ s.queue
  wg_eq : s.completed.length + s.wg = s.submitted.length + s.phantom
  perm : s.taken.Perm (s.busy ++ s.completed)
  nodup : s.submitted.Nodup

lemma shutdownAct_of_open (s : PoolState) (h : s.closed = false) :
    shutdownAct s = { s with closed := true } := by
  simp [shutdownAct, h]

lemma shutdownAct_of_closed (s : PoolState) (h : s.closed = true) :
    shutdownAct s = { s with panicked := true } := by
  simp [shutdownAct, h]

lemma inv_init (w : Int) (c : Nat) : PoolInv (mkPoolState w c) := by
  constructor <;> simp [mkPoolState]

lemma inv_step {f : Nat → Bool} {s s' : PoolState}
    (hi : PoolInv s) (hs : Step f s s') : PoolInv s' := by
  obtain ⟨qcap, fifo, wg_eq, perm, nodup⟩ := hi
  cases hs with
  | start hp =>
      exact ⟨qcap, fifo, wg_eq, perm, nodup⟩
  | submitEnq j hp hc hj hq =>
      refine ⟨?_, ?_, ?_, perm, ?_⟩
      · show (s.queue ++ [j]).length ≤ s.capacity
        simp only [List.length_append, List.length_singleton]
        omega
      · show s.submitted ++ [j] = s.taken ++ (s.queue ++ [j])
        rw [fifo, List.append_assoc]
      · show (s.completed).length + (s.wg + 1) = (s.submitted ++ [j]).length + s.phantom
        simp only [List.length_append, List.length_singleton]
        omega
      · show (s.submitted ++ [j]).Nodup
        simp [List.nodup_append, nodup, hj]
  | submitHand j hp hc hj hq hi2 =>
      refine ⟨qcap, ?_, ?_, ?_, ?_⟩
      · show s.submitted ++ [j] = (s.taken ++ [j]) ++ s.queue
        rw [fifo, hq]
        simp
      · show (s.completed).length + (s.wg + 1) = (s.submitted ++ [j]).length + s.phantom
        simp only [List.length_append, List.length_singleton]
        omega
      · show (s.taken ++ [j]).Perm ((j :: s.busy) ++ s.completed)
        exact (List.perm_append_singleton j s.taken).trans (List.Perm.cons j perm)
      · show (s.submitted ++ [j]).Nodup
        simp [List.nodup_append, nodup, hj]
  | submitClosed j hp hc =>
      refine ⟨qcap, fifo, ?_, perm, nodup⟩
      show (s.completed).length + (s.wg + 1) = (s.submitted).length + (s.phantom + 1)
      omega
  | dequeue j rest hp hq hi2 =>
      refine ⟨?_, ?_, wg_eq, ?_, nodup⟩
      · show rest.length ≤ s.capacity
        have h := qcap
        rw [hq] at h
        simp only [List.length_cons] at h
        omega
      · show s.submitted = (s.taken ++ [j]) ++ rest
        rw [fifo, hq]
        simp
      · show (s.taken ++ [j]).Perm ((j :: s.busy) ++ s.completed)
        exact (List.perm_append_singleton j s.taken).trans (List.Perm.cons j perm)
  | finish j hp hb =>
      have h1 : s.submitted.length = s.taken.length + s.queue.length := by
        rw [fifo]; simp
      have h2 : s.taken.length = s.busy.length + s.completed.length :=
        perm.length_eq.trans (by simp)
      have h3 : 0 < s.busy.length := List.length_pos_of_mem hb
      have hwg : 1 ≤ s.wg := by omega
      refine ⟨qcap, fifo, ?_, ?_, nodup⟩
      · show (s.completed ++ [j]).length + (s.wg - 1) = (s.submitted).length + s.phantom
        simp only [List.length_append, List.length_singleton]
        omega
      · show s.taken.Perm ((s.busy.erase j) ++ (s.completed ++ [j]))
        have hb2 : s.busy.Perm (j :: s.busy.erase j) := List.perm_cons_erase hb
        have p1 : (s.busy ++ s.completed).Perm
            (j :: (s.busy.erase j ++ s.completed)) := hb2.append_right s.completed
        have p2 : (j :: (s.busy.erase j ++ s.completed)).Perm
            ((s.busy.erase j ++ s.completed) ++ [j]) :=
          (List.perm_append_singleton j (s.busy.erase j ++ s.completed)).symm
        have p3 : (s.busy.erase j ++ s.completed) ++ [j]
            = s.busy.erase j ++ (s.completed ++ [j]) := List.append_assoc _ _ _
        exact perm.trans (p1.trans (p3 ▸ p2))
  | workerExit hp hc hq hi2 =>
      exact ⟨qcap, fifo, wg_eq, perm, nodup⟩
  | shutdown hp =>
      cases hcl : s.closed with
      | false =>
          rw [shutdownAct_of_open s hcl]
          exact ⟨qcap, fifo, wg_eq, perm, nodup⟩
      | true =>
          rw [shutdownAct_of_closed s hcl]
          exact ⟨qcap, fifo, wg_eq, perm, nodup⟩

lemma inv_reach {f : Nat → Bool} {s s' : PoolState}
    (hi : PoolInv s) (hr : Reach f s s') : PoolInv s' := by
  induction hr with
  | refl => exact hi
  | tail _ hstep ih => exact inv_step ih hstep

lemma step_config {f : Nat → Bool} {s s' : PoolState} (hs : Step f s s') :
    s'.workers = s.workers ∧ s'.capacity = s.capacity := by
  cases hs with
  | start hp => exact ⟨rfl, rfl⟩
  | submitEnq j hp hc hj hq => exact ⟨rfl, rfl⟩
  | submitHand j hp hc hj hq hi2 => exact ⟨rfl, rfl⟩
  | submitClosed j hp hc => exact ⟨rfl, rfl⟩
  | dequeue j rest hp hq hi2 => exact ⟨rfl, rfl⟩
  | finish j hp hb => exact ⟨rfl, rfl⟩
  | workerExit hp hc hq hi2 => exact ⟨rfl, rfl⟩
  | shutdown hp =>
      unfold shutdownAct
      split <;> exact ⟨rfl, rfl⟩

lemma reach_config {f : Nat → Bool} {s s' : PoolState} (hr : Reach f s s') :
    s'.workers = s.workers ∧ s'.capacity = s.capacity := by
  induction hr with
  | refl => exact ⟨rfl, rfl⟩
  | tail _ hstep ih =>
      obtain ⟨h1, h2⟩ := step_config hstep
      exact ⟨h1.trans ih.1, h2.trans ih.2⟩

/-- In any state satisfying the invariant in which the WaitGroup counter is
zero and no post-shutdown submission happened, the channel is empty, no
worker is executing a job, and the completed jobs are exactly the submitted
ones. -/
lemma drain_of_inv {s : PoolState} (hi : PoolInv s)
    (hph : s.phantom = 0) (hwg : s.wg = 0) :
    s.queue = [] ∧ s.busy = [] ∧ s.taken = s.submitted ∧
    s.completed.Perm s.submitted := by
  obtain ⟨qcap, fifo, wg_eq, perm, nodup⟩ := hi
  have h1 : s.submitted.length = s.taken.length + s.queue.length := by
    rw [fifo]; simp
  have h2 : s.taken.length = s.busy.length + s.completed.length :=
    perm.length_eq.trans (by simp)
  have hq : s.queue.length = 0 := by omega
  have hbz : s.busy.length = 0 := by omega
  have hqe : s.queue = [] := List.length_eq_zero.mp hq
  have hbe : s.busy = [] := List.length_eq_zero.mp hbz
  have ht : s.taken = s.submitted := by rw [fifo, hqe, List.append_nil]
  refine ⟨hqe, hbe, ht, ?_⟩
  have hp2 : s.taken.Perm s.completed := by
    have := perm
    rw [hbe] at this
    simpa using this
  rw [← ht]
  exact hp2.symm

/-- A pool whose workers field is non-positive spawns no goroutines: no
job is ever taken from the channel and nothing ever completes. -/
def NoWorkerInv (s : PoolState) : Prop :=
  s.workers ≤ 0 ∧ s.idle = 0 ∧ s.busy = [] ∧ s.taken = [] ∧ s.completed = []

lemma noworker_step {f : Nat → Bool} {s s' : PoolState}
    (hn : NoWorkerInv s) (hs : Step f s s') : NoWorkerInv s' := by
  obtain ⟨hw, hidle, hbusy, htaken, hcomp⟩ := hn
  cases hs with
  | start hp =>
      refine ⟨hw, ?_, hbusy, htaken, hcomp⟩
      show s.idle + s.workers.toNat = 0
      rw [hidle, Int.toNat_of_nonpos hw]
  | submitEnq j hp hc hj hq => exact ⟨hw, hidle, hbusy, htaken, hcomp⟩
  | submitHand j hp hc hj hq hi2 => omega
  | submitClosed j hp hc => exact ⟨hw, hidle, hbusy, htaken, hcomp⟩
  | dequeue j rest hp hq hi2 => omega
  | finish j hp hb => rw [hbusy] at hb; cases hb
  | workerExit hp hc hq hi2 => omega
  | shutdown hp =>
      unfold shutdownAct
      split <;> exact ⟨hw, hidle, hbusy, htaken, hcomp⟩

lemma noworker_reach {f : Nat → Bool} {s s' : PoolState}
    (hn : NoWorkerInv s) (hr : Reach f s s') : NoWorkerInv s' := by
  induction hr with
  | refl => exact hn
  | tail _ hstep ih => exact noworker_step ih hstep

/-- A failure pattern under which every job succeeds. -/
def noFail : Nat → Bool := fun _ => false

/-- A failure pattern under which every job fails. -/
def allFail : Nat → Bool := fun _ => true

/-- Concrete pool from NewWorkerPool with 1 worker and channel capacity 2. -/
def ws0 : PoolState := mkPoolState 1 2

def ws1 : PoolState := startAct ws0

def ws2 : PoolState := submitEnqAct ws1 7

def ws3 : PoolState := dequeueAct ws2 7 []

def ws4 : PoolState := finishAct noFail ws3 7

def ws5 : PoolState := shutdownAct ws4

lemma reach_ws3 (f : Nat → Bool) : Reach f ws0 ws3 :=
  ((Relation.ReflTransGen.refl.tail (Step.start ws0 (by decide))).tail
    (Step.submitEnq ws1 7 (by decide) (by decide) (by decide) (by decide))).tail
    (Step.dequeue ws2 7 [] (by decide) (by decide) (by decide))

lemma reach_ws5 : Reach noFail ws0 ws5 :=
  ((reach_ws3 noFail).tail (Step.finish ws3 7 (by decide) (by decide))).tail
    (Step.shutdown ws4 (by decide))

/-- C3: for every N ≥ 0, if N jobs are submitted via Submit before
Shutdown and Wait are called, then by the time Wait returns exactly N
invocations of Process have occurred: the taken list (one entry per
Process invocation) equals the submitted list, so no submitted job is
dropped and none is processed twice, and the completed jobs are exactly
the submitted ones. -/
theorem all_submitted_processed_exactly_once (f : Nat → Bool) (w : Int)
    (c : Nat) (s : PoolState) (hr : Reach f (mkPoolState w c) s)
    (hph : s.phantom = 0) (hwg : WaitReturns s) :
    s.taken = s.submitted ∧ s.taken.length = s.submitted.length ∧
    s.taken.Nodup ∧ s.completed.Perm s.submitted ∧ s.completed.Nodup := by
  have hi := inv_reach (inv_init w c) hr
  obtain ⟨hqe, hbe, ht, hcp⟩ := drain_of_inv hi hph hwg
  refine ⟨ht, by rw [ht], ?_, hcp, ?_⟩
  · rw [ht]; exact hi.nodup
  · exact (hcp.nodup_iff).mpr hi.nodup

theorem all_submitted_processed_exactly_once_witness :
    ws5.taken = ws5.submitted ∧ ws5.taken.length = ws5.submitted.length ∧
    ws5.taken.Nodup ∧ ws5.completed.Perm ws5.submitted ∧
    ws5.completed.Nodup :=
  all_submitted_processed_exactly_once noFail 1 2 ws5 reach_ws5
    (by decide) (show ws5.wg = 0 by decide)

/-- C4: Wait blocks until the WaitGroup counter is zero; in every
reachable state without a post-shutdown submission, the counter equals
submitted minus completed, it is zero exactly when every submitted job has
completed, and when it is zero the channel is drained and no worker is
still executing, so jobs queued at shutdown time have run before Wait
returns. -/
theorem wait_returns_only_when_counter_zero (f : Nat → Bool) (w : Int)
    (c : Nat) (s : PoolState) (hr : Reach f (mkPoolState w c) s)
    (hph : s.phantom = 0) :
    s.completed.length + s.wg = s.submitted.length ∧
    (WaitReturns s ↔ s.completed.Perm s.submitted) ∧
    (WaitReturns s → s.queue = [] ∧ s.busy = []) := by
  have hi := inv_reach (inv_init w c) hr
  have hwg : s.completed.length + s.wg = s.submitted.length := by
    have := hi.wg_eq
    omega
  refine ⟨hwg, ⟨?_, ?_⟩, ?_⟩
  · intro h
    exact (drain_of_inv hi hph h).2.2.2
  · intro h
    have hlen := h.length_eq
    show s.wg = 0
    omega
  · intro h
    obtain ⟨hqe, hbe, _, _⟩ := drain_of_inv hi hph h
    exact ⟨hqe, hbe⟩

theorem wait_returns_only_when_counter_zero_witness :
    ws5.completed.length + ws5.wg = ws5.submitted.length ∧
    (WaitReturns ws5 ↔ ws5.completed.Perm ws5.submitted) ∧
    (WaitReturns ws5 → ws5.queue = [] ∧ ws5.busy = []) :=
  wait_returns_only_when_counter_zero noFail 1 2 ws5 reach_ws5 (by decide)

/-- C5: in every reachable state of a pool built with capacity c the
channel buffer holds between 0 and c jobs; with capacity 0 the buffer is
always empty; and any step that completes a Submit (extends the submitted
list) was possible only because the buffer had a free slot or an idle
worker was ready to receive the job directly — a Submit that would exceed
the capacity is simply not enabled, it neither fails nor drops the job. -/
theorem queue_bounded_submit_blocks (f : Nat → Bool) (w : Int) (c : Nat)
    (s : PoolState) (hr : Reach f (mkPoolState w c) s) :
    s.capacity = c ∧ s.queue.length ≤ c ∧ (c = 0 → s.queue = []) ∧
    (∀ s2 : PoolState, ∀ j : Nat, Step f s s2 →
      s2.submitted = s.submitted ++ [j] →
      s.queue.length < c ∨ (s.queue = [] ∧ 0 < s.idle)) := by
  have hi := inv_reach (inv_init w c) hr
  have hcap : s.capacity = c := (reach_config hr).2
  have hb : s.queue.length ≤ c := hcap ▸ hi.qcap
  refine ⟨hcap, hb, ?_, ?_⟩
  · intro h0
    have : s.queue.length = 0 := by omega
    exact List.length_eq_zero.mp this
  · intro s2 j hs hsub
    cases hs with
    | start hp =>
        exfalso
        have := congrArg List.length hsub
        simp [startAct] at this
    | submitEnq j2 hp hc2 hj hq =>
        left
        rw [← hcap]
        exact hq
    | submitHand j2 hp hc2 hj hq hi2 =>
        right
        exact ⟨hq, hi2⟩
    | submitClosed j2 hp hc2 =>
        exfalso
        have := congrArg List.length hsub
        simp [submitClosedAct] at this
    | dequeue j2 rest hp hq hi2 =>
        exfalso
        have := congrArg List.length hsub
        simp [dequeueAct] at this
    | finish j2 hp hb2 =>
        exfalso
        have := congrArg List.length hsub
        simp [finishAct] at this
    | workerExit hp hc2 hq hi2 =>
        exfalso
        have := congrArg List.length hsub
        simp [workerExitAct] at this
    | shutdown hp =>
        exfalso
        have := congrArg List.length hsub
        unfold shutdownAct at this
        split at this <;> simp at this

theorem queue_bounded_submit_blocks_witness :
    ws5.capacity = 2 ∧ ws5.queue.length ≤ 2 ∧ (2 = 0 → ws5.queue = []) ∧
    (∀ s2 : PoolState, ∀ j : Nat, Step noFail ws5 s2 →
      s2.submitted = ws5.submitted ++ [j] →
      ws5.queue.length < 2 ∨ (ws5.queue = [] ∧ 0 < ws5.idle)) :=
  queue_bounded_submit_blocks noFail 1 2 ws5 reach_ws5

/-- C8: jobs leave the channel in the order their Submit enqueued them:
in every reachable state the taken list (the dequeue order) is an initial
segment of the submitted list, so if job A was enqueued before job B then
A is dequeued before B.  Nothing relates the completion order to it. -/
theorem fifo_arrival_order (f : Nat → Bool) (w : Int) (c : Nat)
    (s : PoolState) (hr : Reach f (mkPoolState w c) s) :
    s.submitted = s.taken ++ s.queue ∧
    s.taken = s.submitted.take s.taken.length ∧
    (∀ i : Nat, i < s.taken.length → s.taken[i]? = s.submitted[i]?) := by
  have hi := inv_reach (inv_init w c) hr
  refine ⟨hi.fifo, ?_, ?_⟩
  · rw [hi.fifo, List.take_left]
  · intro i h
    rw [hi.fifo, List.getElem?_append_left h]

theorem fifo_arrival_order_witness :
    ws5.submitted = ws5.taken ++ ws5.queue ∧
    ws5.taken = ws5.submitted.take ws5.taken.length ∧
    (∀ i : Nat, i < ws5.taken.length → ws5.taken[i]? = ws5.submitted[i]?) :=
  fifo_arrival_order noFail 1 2 ws5 reach_ws5

/-- C6: a job whose Process returns an error is confined to its worker
iteration: after the finish step the worker is idle again (not exited),
the channel is untouched and the job is neither requeued nor still
running, the error is appended to the log, the pool has not panicked, and
from the resulting state any drain still completes every submitted job
exactly once. -/
theorem failing_job_isolated (f : Nat → Bool) (w : Int) (c : Nat)
    (s : PoolState) (j : Nat) (hr : Reach f (mkPoolState w c) s)
    (hp : s.panicked = false) (hb : j ∈ s.busy) (hf : f j = true) :
    Step f s (finishAct f s j) ∧
    (finishAct f s j).idle = s.idle + 1 ∧
    (finishAct f s j).exited = s.exited ∧
    (finishAct f s j).queue = s.queue ∧
    j ∉ (finishAct f s j).queue ∧
    j ∉ (finishAct f s j).busy ∧
    (finishAct f s j).logged = s.logged ++ [j] ∧
    (finishAct f s j).panicked = false ∧
    (∀ s2 : PoolState, Reach f (finishAct f s j) s2 → s2.phantom = 0 →
      WaitReturns s2 → s2.completed.Perm s2.submitted) := by
  have hi := inv_reach (inv_init w c) hr
  have hstep : Step f s (finishAct f s j) := Step.finish s j hp hb
  have hsplit := List.nodup_append.mp (hi.fifo ▸ hi.nodup)
  have htn : s.taken.Nodup := hsplit.1
  have hdisj : s.taken.Disjoint s.queue := hsplit.2.2
  have hjt : j ∈ s.taken := hi.perm.mem_iff.mpr (by simp [hb])
  have hbn : s.busy.Nodup :=
    (List.nodup_append.mp (hi.perm.nodup_iff.mp htn)).1
  refine ⟨hstep, rfl, rfl, rfl, ?_, ?_, ?_, hp, ?_⟩
  · show j ∉ s.queue
    exact hdisj hjt
  · show j ∉ s.busy.erase j
    exact hbn.not_mem_erase
  · show (if f j then s.logged ++ [j] else s.logged) = s.logged ++ [j]
    rw [hf]
    simp
  · intro s2 hr2 hph2 hwg2
    have hi2 := inv_reach (inv_step hi hstep) hr2
    exact (drain_of_inv hi2 hph2 hwg2).2.2.2

theorem failing_job_isolated_witness :
    Step allFail ws3 (finishAct allFail ws3 7) ∧
    (finishAct allFail ws3 7).idle = ws3.idle + 1 ∧
    (finishAct allFail ws3 7).exited = ws3.exited ∧
    (finishAct allFail ws3 7).queue = ws3.queue ∧
    7 ∉ (finishAct allFail ws3 7).queue ∧
    7 ∉ (finishAct allFail ws3 7).busy ∧
    (finishAct allFail ws3 7).logged = ws3.logged ++ [7] ∧
    (finishAct allFail ws3 7).panicked = false ∧
    (∀ s2 : PoolState, Reach allFail (finishAct allFail ws3 7) s2 →
      s2.phantom = 0 → WaitReturns s2 → s2.completed.Perm s2.submitted) :=
  failing_job_isolated allFail 1 2 ws3 7 (reach_ws3 allFail)
    (by decide) (by decide) rfl

/-- Concrete pool from NewWorkerPool with 1 worker, capacity 0. -/
def pool10 : PoolState := mkPoolState 1 0

/-- C7 counterexample: Start has no guard.  On a freshly started pool with
workers = 1 a second Start call is a legal step and spawns a second
worker (idle goes from 1 to 2), so the claim that a second Start is
rejected is false. -/
theorem double_start_spawns_second_fleet :
    NewWorkerPool "1" "0" = some pool10 ∧
    Step noFail pool10 (startAct pool10) ∧
    Step noFail (startAct pool10) (startAct (startAct pool10)) ∧
    (startAct pool10).idle = 1 ∧
    (startAct (startAct pool10)).idle = 2 ∧
    (startAct (startAct pool10)).started = 2 :=
  ⟨by decide, Step.start pool10 (by decide),
   Step.start (startAct pool10) (by decide), by decide, by decide, by decide⟩

/-- C7 amended: calling Start more than once is not guarded against: in
any non-panicked state a Start step is enabled and each call spawns
another workers.toNat goroutines on top of the existing ones. -/
theorem start_has_no_guard (f : Nat → Bool) (s : PoolState)
    (hp : s.panicked = false) :
    Step f s (startAct s) ∧
    (startAct s).idle = s.idle + s.workers.toNat ∧
    (startAct s).started = s.started + 1 :=
  ⟨Step.start s hp, rfl, rfl⟩

theorem start_has_no_guard_witness :
    Step noFail pool10 (startAct pool10) ∧
    (startAct pool10).idle = pool10.idle + pool10.workers.toNat ∧
    (startAct pool10).started = pool10.started + 1 :=
  start_has_no_guard noFail pool10 (by decide)

/-- C9: Shutdown is not idempotent.  From any non-panicked state in which
the channel is not yet closed, the first Shutdown closes the channel
without panicking, and a second Shutdown — a legal step — panics, because
it executes close on an already-closed channel. -/
theorem shutdown_not_idempotent (f : Nat → Bool) (s : PoolState)
    (hc : s.closed = false) (hp : s.panicked = false) :
    (shutdownAct s).closed = true ∧
    (shutdownAct s).panicked = false ∧
    Step f (shutdownAct s) (shutdownAct (shutdownAct s)) ∧
    (shutdownAct (shutdownAct s)).panicked = true := by
  rw [shutdownAct_of_open s hc]
  refine ⟨rfl, hp, Step.shutdown _ hp, ?_⟩
  rw [shutdownAct_of_closed _ rfl]

theorem shutdown_not_idempotent_witness :
    (shutdownAct ws4).closed = true ∧
    (shutdownAct ws4).panicked = false ∧
    Step noFail (shutdownAct ws4) (shutdownAct (shutdownAct ws4)) ∧
    (shutdownAct (shutdownAct ws4)).panicked = true :=
  shutdown_not_idempotent noFail ws4 (by decide) (by decide)

/-- Concrete pool from NewWorkerPool with 3 workers, capacity 5. -/
def pool35 : PoolState := mkPoolState 3 5

/-- C1: the code panics on Submit after Shutdown.  On the pool built by
NewWorkerPool with 3 workers and capacity 5, Shutdown followed by Submit
is a reachable execution whose Submit performs wg.Add(1) and then panics
sending on the closed channel — it neither returns an error nor blocks. -/
theorem submit_after_shutdown_panics :
    NewWorkerPool "3" "5" = some pool35 ∧
    Step noFail pool35 (shutdownAct pool35) ∧
    Step noFail (shutdownAct pool35) (submitClosedAct (shutdownAct pool35)) ∧
    Reach noFail pool35 (submitClosedAct (shutdownAct pool35)) ∧
    (submitClosedAct (shutdownAct pool35)).panicked = true ∧
    (submitClosedAct (shutdownAct pool35)).wg = 1 := by
  have h1 : Step noFail pool35 (shutdownAct pool35) :=
    Step.shutdown pool35 (by decide)
  have h2 : Step noFail (shutdownAct pool35)
      (submitClosedAct (shutdownAct pool35)) :=
    Step.submitClosed (shutdownAct pool35) 0 (by decide) (by decide)
  refine ⟨by decide, h1, h2, ?_, by decide, by decide⟩
  exact (Relation.ReflTransGen.refl.tail h1).tail h2

/-- Concrete pool from NewWorkerPool with an unparsable worker count. -/
def poolBad : PoolState := mkPoolState 0 10

/-- C2: an unparsable worker-count string is neither rejected nor clamped.
strconv.Atoi of an unparsable value (its error discarded) yields 0, the
constructor returns a pool whose workers field is 0, and in every state
reachable from that pool there are no worker goroutines, no job is ever
taken from the channel and nothing ever completes — the pool can never
drain its queue. -/
theorem unparsable_workers_never_drain :
    goAtoi "abc" = 0 ∧
    NewWorkerPool "abc" "10" = some poolBad ∧
    poolBad.workers = 0 ∧
    (∀ f : Nat → Bool, ∀ s : PoolState, Reach f poolBad s →
      s.idle = 0 ∧ s.busy = [] ∧ s.taken = [] ∧ s.completed = []) := by
  refine ⟨by decide, by decide, by decide, ?_⟩
  intro f s hr
  have hn : NoWorkerInv poolBad := by
    refine ⟨?_, rfl, rfl, rfl, rfl⟩
    decide
  obtain ⟨_, h1, h2, h3, h4⟩ := noworker_reach hn hr
  exact ⟨h1, h2, h3, h4⟩

theorem unparsable_workers_never_drain_witness :
    goAtoi "abc" = 0 ∧
    NewWorkerPool "abc" "10" = some poolBad ∧
    poolBad.workers = 0 ∧
    ((submitEnqAct poolBad 4).idle = 0 ∧ (submitEnqAct poolBad 4).busy = [] ∧
     (submitEnqAct poolBad 4).taken = [] ∧
     (submitEnqAct poolBad 4).completed = []) :=
  ⟨unparsable_workers_never_drain.1, unparsable_workers_never_drain.2.1,
   unparsable_workers_never_drain.2.2.1,
   unparsable_workers_never_drain.2.2.2 noFail (submitEnqAct poolBad 4)
     (Relation.ReflTransGen.single
       (Step.submitEnq poolBad 4 (by decide) (by decide) (by decide)
         (by decide)))⟩

namespace domain

/-- The domain.Email value type (To, Subject, Text, HTML). -/
structure Email where
  To : String
  Subject : String
  Text : String
  HTML : String
deriving DecidableEq, Repr

end domain

/-- The domain.EmailService interface: Send takes an Email and returns an
error or nil, modelled as a function into Option Err with none for nil. -/
def EmailService (Err : Type) : Type := domain.Email → Option Err

/-- SendEmailJob from the jobs package: an Email payload together with the
EmailService used to send it. -/
structure SendEmailJob (Err : Type) where
  Email : domain.Email
  Service : EmailService Err

/-- SendEmailJob.Process: err := job.Service.Send(&job.Email); return err. -/
def SendEmailJob.Process {Err : Type} (job : SendEmailJob Err) :
    Option Err :=
  job.Service job.Email

/-- C10: Process returns exactly what Service.Send returns on the job's
Email field: nil exactly when Send returns nil and otherwise the same
error value, unchanged — no retry, wrapping or transformation. -/
theorem sendEmailJob_process_is_send {Err : Type}
    (job : SendEmailJob Err) :
    job.Process = job.Service job.Email ∧
    (job.Process = none ↔ job.Service job.Email = none) ∧
    (∀ e : Err, job.Process = some e ↔ job.Service job.Email = some e) :=
  ⟨rfl, Iff.rfl, fun _ => Iff.rfl⟩
